import Mathlib

/-!
# Verification of the My-Tasks-App task-list controller

Shallow embedding of the state logic of `src/app/(tabs)/index.tsx`
(the single `App` component): the task record, the
create/update/toggle/delete/undo transitions and the derived
sorted-and-filtered view.  Rendering, storage serialization and the
notification collaborator's internals are out of scope; the collaborator
is modelled by its observable requests (an effect list) and its reply
(a parameter).  JavaScript's `Array.prototype.sort` is required to be
stable by the language standard, so the derived view's sort step is
embedded as a stable insertion sort over the same comparator key.
-/

namespace TasksApp

/-- `type Priority = 'High' | 'Medium' | 'Low'` (index.tsx line 15). -/
inductive Priority where
  | High
  | Medium
  | Low
deriving DecidableEq, Repr

/-- `type SortOption = 'priority' | 'completed' | 'reminder'` (line 16). -/
inductive SortOption where
  | priority
  | completed
  | reminder
deriving DecidableEq, Repr

/-- The `Task` record (lines 18-25). `notificationId` is the optional
reminder handle returned by the scheduler. -/
structure Task where
  id : String
  text : String
  priority : Priority
  completed : Bool
  reminderSeconds : Nat
  notificationId : Option String := none
deriving DecidableEq, Repr

/-- `const priorityOrder = { High: 1, Medium: 2, Low: 3 }` (line 38). -/
def priorityOrder : Priority → Nat
  | .High => 1
  | .Medium => 2
  | .Low => 3

/-- User-surfaced error taxonomy of the spec: the code surfaces
`EmptyText` through the `alert` in `addOrUpdateTask`; `NotFound` is in
the spec's signature for `delete` but the code has no path producing it. -/
inductive AppError where
  | emptyText
  | notFound
deriving DecidableEq, Repr

/-- Observable requests sent to the notification scheduler: a schedule
request (with the task text and delay) or a cancellation of a handle. -/
inductive NotifEffect where
  | schedule (body : String) (seconds : Nat)
  | cancel (handle : String)
deriving DecidableEq, Repr

/-- The component state the claims concern: the authoritative task list
and the one-slot pending-deletion holder (`deletedTask`, line 33). -/
structure AppState where
  tasks : List Task
  deletedTask : Option Task := none
deriving DecidableEq, Repr

/-- Result of one mutation handler: the new state, the error surfaced to
the user (via `alert`) if any, and the scheduler requests issued. -/
structure OpResult where
  state : AppState
  error : Option AppError := none
  effects : List NotifEffect := []
deriving DecidableEq, Repr

/-- JavaScript `String.prototype.trim`: strips leading and trailing
whitespace.  Embedded over the character list so that it evaluates by
kernel reduction. -/
def trimStr (s : String) : String :=
  ⟨((s.data.dropWhile Char.isWhitespace).reverse.dropWhile
      Char.isWhitespace).reverse⟩

/-- `if (notificationId) newTask.notificationId = notificationId`
(line 104): the handle is attached only when the scheduler's reply is a
truthy string (JavaScript treats the empty string as falsy). -/
def scheduledHandle : Option String → Option String
  | some h => if h = "" then none else some h
  | none => none

/-- `addOrUpdateTask` (lines 80-113).  The component reads `taskText`,
`priority`, `reminderSeconds` and `editingId` from its state; they are
passed here as arguments, together with the clock value `now` feeding
`Date.now().toString()` (line 97) and the scheduler's reply
`schedResult` for the create branch.  The empty-trim check (line 81)
precedes both branches; the edit branch maps over the list replacing
`text`, `priority` and `reminderSeconds` on the matching task; the
create branch prepends a fresh task with trimmed text. -/
def addOrUpdateTask (editingId : Option String) (taskText : String)
    (priority : Priority) (reminderSeconds : Nat)
    (now : Nat) (schedResult : Option String) (s : AppState) : OpResult :=
  if trimStr taskText = "" then
    { state := s, error := some .emptyText }
  else
    match editingId with
    | some eid =>
        { state := { s with tasks := s.tasks.map fun task =>
            if task.id = eid then
              { task with text := taskText, priority := priority,
                          reminderSeconds := reminderSeconds }
            else task } }
    | none =>
        let newTask : Task :=
          { id := toString now, text := trimStr taskText, priority := priority,
            completed := false, reminderSeconds := reminderSeconds,
            notificationId := scheduledHandle schedResult }
        { state := { s with tasks := newTask :: s.tasks },
          effects := [.schedule newTask.text newTask.reminderSeconds] }

/-- `toggleComplete` (lines 115-129): flips `completed` on the matching
task and clears its `notificationId` (the map returns
`notificationId: undefined` on the matching task in both directions). -/
def toggleComplete (taskId : String) (tasks : List Task) : List Task :=
  tasks.map fun task =>
    if task.id = taskId then
      { task with completed := !task.completed, notificationId := none }
    else task

/-- `deleteTask` (lines 131-143): finds the task; if absent the handler
just returns (no error is surfaced).  Otherwise it cancels the task's
notification handle if present, moves the found task into the holder
and removes it from the list.  The held task keeps its
`notificationId` field. -/
def deleteTask (taskId : String) (s : AppState) : OpResult :=
  match s.tasks.find? (fun t => t.id == taskId) with
  | none => { state := s }
  | some taskToDelete =>
      { state := { tasks := s.tasks.filter (fun t => t.id != taskId),
                   deletedTask := some taskToDelete },
        effects :=
          match taskToDelete.notificationId with
          | some h => [.cancel h]
          | none => [] }

/-- `undoDelete` (lines 145-153): if the holder is occupied, prepend the
held task (unchanged) to the list and clear the holder; otherwise no-op. -/
def undoDelete (s : AppState) : AppState :=
  match s.deletedTask with
  | some dt => { tasks := dt :: s.tasks, deletedTask := none }
  | none => s

/-- The numeric comparator key of the sort step (lines 169-175):
`priorityOrder` for priority, `Number(completed)` for completed,
`reminderSeconds` for reminder. -/
def sortKeyVal : SortOption → Task → Nat
  | .priority, t => priorityOrder t.priority
  | .completed, t => if t.completed then 1 else 0
  | .reminder, t => t.reminderSeconds

/-- The order relation the comparator `(a, b) => key(a) - key(b)` induces. -/
def taskLE (so : SortOption) (a b : Task) : Prop :=
  sortKeyVal so a ≤ sortKeyVal so b

instance (so : SortOption) : DecidableRel (taskLE so) := fun a b =>
  inferInstanceAs (Decidable (sortKeyVal so a ≤ sortKeyVal so b))

instance (so : SortOption) : IsTotal Task (taskLE so) :=
  ⟨fun a b => Nat.le_total (sortKeyVal so a) (sortKeyVal so b)⟩

instance (so : SortOption) : IsTrans Task (taskLE so) :=
  ⟨fun _ _ _ hab hbc => Nat.le_trans hab hbc⟩

/-- `displayedTasks` (lines 162-178): filter by priority (`none` models
the "All" filter), copy, then sort with the comparator for the chosen
key.  `Array.prototype.sort` is stable per the ECMAScript standard, and
a stable sort under a total preorder is unique, so the stable
`List.insertionSort` over the same key is the faithful embedding. -/
def displayedTasks (sortOption : SortOption) (filterPriority : Option Priority)
    (tasks : List Task) : List Task :=
  let filtered :=
    match filterPriority with
    | some p => tasks.filter (fun t => t.priority == p)
    | none => tasks
  List.insertionSort (taskLE sortOption) filtered

/-! ## Stability of the sort step -/

/-- `orderedInsert` skips only elements with a strictly smaller key, so
the sublist of any fixed key value gains `x` at its front exactly when
`x` has that key. -/
theorem filter_orderedInsert_key (so : SortOption) (k : Nat) (x : Task) :
    ∀ l : List Task,
      (List.orderedInsert (taskLE so) x l).filter
          (fun t => sortKeyVal so t == k) =
        if sortKeyVal so x = k then
          x :: l.filter (fun t => sortKeyVal so t == k)
        else l.filter (fun t => sortKeyVal so t == k)
  | [] => by
    by_cases h : sortKeyVal so x = k <;>
      simp [List.orderedInsert, List.filter_cons, h]
  | y :: l => by
    by_cases hle : taskLE so x y
    · rw [List.orderedInsert, if_pos hle]
      by_cases h : sortKeyVal so x = k <;> simp [List.filter_cons, h]
    · rw [List.orderedInsert, if_neg hle]
      have hy : sortKeyVal so y < sortKeyVal so x := by
        simpa [taskLE, Nat.not_le] using hle
      by_cases h : sortKeyVal so x = k
      · have hyk : ¬ sortKeyVal so y = k := by omega
        simp [List.filter_cons, hyk, filter_orderedInsert_key so k x l, h]
      · by_cases hyk : sortKeyVal so y = k <;>
          simp [List.filter_cons, hyk, filter_orderedInsert_key so k x l, h]

/-- Stability of the embedded sort: restricting the sorted list to the
tasks of any one key value yields exactly the same sequence as
restricting the input, i.e. equal-key tasks retain their relative order. -/
theorem filter_insertionSort_key (so : SortOption) (k : Nat) :
    ∀ l : List Task,
      (List.insertionSort (taskLE so) l).filter
          (fun t => sortKeyVal so t == k) =
        l.filter (fun t => sortKeyVal so t == k)
  | [] => rfl
  | x :: l => by
    rw [List.insertionSort, filter_orderedInsert_key]
    by_cases h : sortKeyVal so x = k <;>
      simp [List.filter_cons, h, filter_insertionSort_key so k l]

/-! ## Claim theorems -/

/-- C3: creating with text that is empty after trimming surfaces the
EmptyText error, issues no scheduler request, and leaves the state
(task list and holder) exactly unchanged. -/
theorem create_empty_text_rejected (s : AppState) (p : Priority)
    (r now : Nat) (sched : Option String) (text : String)
    (h : trimStr text = "") :
    addOrUpdateTask none text p r now sched s =
      { state := s, error := some .emptyText, effects := [] } := by
  simp [addOrUpdateTask, h]

/-- Witness for C3 at the concrete input `"   "`. -/
theorem create_empty_text_rejected_w :
    (trimStr "   " = "") ∧
      addOrUpdateTask none "   " .Medium 300 7 none
          { tasks := [], deletedTask := none } =
        { state := { tasks := [], deletedTask := none },
          error := some .emptyText, effects := [] } :=
  ⟨by decide,
   create_empty_text_rejected { tasks := [], deletedTask := none }
     .Medium 300 7 none "   " (by decide)⟩

/-- C4: `toggleComplete` applied twice with the same id preserves every
task's `completed` flag (and its id), positionally across the list. -/
theorem toggleComplete_involutive (i : String) (tasks : List Task) :
    (toggleComplete i (toggleComplete i tasks)).map
        (fun t => (t.id, t.completed)) =
      tasks.map (fun t => (t.id, t.completed)) := by
  unfold toggleComplete
  rw [List.map_map, List.map_map]
  refine List.map_congr_left ?_
  intro a _
  by_cases h : a.id = i <;> simp [Function.comp, h, Bool.not_not]

/-! ## Delete, undo, and the pending-deletion holder -/

/-- If some task of the list has the wanted id, `find?` returns one, and
it is a member with that id (the first such member). -/
theorem exists_find?_of_mem_id (l : List Task) (i : String)
    (h : ∃ t ∈ l, t.id = i) :
    ∃ d, l.find? (fun t => t.id == i) = some d ∧ d ∈ l ∧ d.id = i := by
  cases hf : l.find? (fun t => t.id == i) with
  | none =>
      exfalso
      obtain ⟨t, ht, hti⟩ := h
      have := List.find?_eq_none.mp hf t ht
      simp [hti] at this
  | some d =>
      exact ⟨d, rfl, List.mem_of_find?_eq_some hf,
        by simpa using List.find?_some hf⟩

/-- Composite of a successful delete and the immediate undo: the found
task itself is prepended, unchanged, to the list with the id removed. -/
theorem undo_delete_eq (s : AppState) (i : String) (d : Task)
    (hf : s.tasks.find? (fun t => t.id == i) = some d) :
    (undoDelete (deleteTask i s).state).tasks =
      d :: s.tasks.filter (fun t => t.id != i) := by
  simp [deleteTask, hf, undoDelete]

/-- C1: deleting an id present in the list and immediately undoing
re-inserts the deleted task itself — all of its fields, `id`, `text`,
`priority`, `completed` and `reminderSeconds` included — at the front of
the list. -/
theorem delete_then_undo_restores_front (s : AppState) (i : String)
    (h : ∃ t ∈ s.tasks, t.id = i) :
    ∃ d ∈ s.tasks, d.id = i ∧
      (undoDelete (deleteTask i s).state).tasks =
        d :: s.tasks.filter (fun t => t.id != i) := by
  obtain ⟨d, hf, hmem, hid⟩ := exists_find?_of_mem_id s.tasks i h
  exact ⟨d, hmem, hid, undo_delete_eq s i d hf⟩

/-- Sample task used by witnesses: no reminder handle attached. -/
def sampleTask : Task :=
  { id := "1", text := "a", priority := .Medium, completed := false,
    reminderSeconds := 300, notificationId := none }

/-- Sample task with a scheduled reminder handle. -/
def sampleTaskHandle : Task :=
  { id := "1", text := "a", priority := .Medium, completed := false,
    reminderSeconds := 300, notificationId := some "n1" }

/-- Witness for C1 on a one-task list. -/
theorem delete_then_undo_restores_front_w :
    (∃ t ∈ (AppState.mk [sampleTask] none).tasks, t.id = "1") ∧
      (∃ d ∈ (AppState.mk [sampleTask] none).tasks, d.id = "1" ∧
        (undoDelete (deleteTask "1" (AppState.mk [sampleTask] none)).state).tasks =
          d :: (AppState.mk [sampleTask] none).tasks.filter
            (fun t => t.id != "1")) :=
  ⟨by decide,
   delete_then_undo_restores_front (AppState.mk [sampleTask] none) "1"
     (by decide)⟩

/-- C2 counterexample: a task holding handle `"n1"` is deleted — the
scheduler receives the cancellation — yet the task re-inserted by
`undoDelete` still carries `notificationId = some "n1"`, so its reminder
handle is not absent after the cancellation. -/
theorem undo_retains_handle_cex :
    (deleteTask "1" (AppState.mk [sampleTaskHandle] none)).effects =
        [.cancel "n1"] ∧
      (undoDelete
          (deleteTask "1" (AppState.mk [sampleTaskHandle] none)).state).tasks.map
          Task.notificationId = [some "n1"] := by
  decide

/-- C2 amended: `toggleComplete` does clear the matching task's handle,
but `deleteTask` leaves the handle on the held task, so the task
re-inserted by `undoDelete` retains exactly the handle it had when it
was deleted (the cancelled handle is not cleared). -/
theorem undo_retains_handle (s : AppState) (i : String)
    (h : ∃ t ∈ s.tasks, t.id = i) :
    (∀ t ∈ toggleComplete i s.tasks, t.id = i → t.notificationId = none) ∧
      ∃ d ∈ s.tasks, d.id = i ∧
        (undoDelete (deleteTask i s).state).tasks.head?.map
            Task.notificationId = some d.notificationId := by
  constructor
  · intro t ht hti
    obtain ⟨a, _, rfl⟩ := List.mem_map.mp ht
    by_cases ha : a.id = i
    · simp [ha]
    · rw [if_neg ha] at hti ⊢
      exact absurd hti ha
  · obtain ⟨d, hf, hmem, hid⟩ := exists_find?_of_mem_id s.tasks i h
    exact ⟨d, hmem, hid, by rw [undo_delete_eq s i d hf]; rfl⟩

/-- Witness for C2's amended statement on a one-task list whose task
holds handle `"n1"`. -/
theorem undo_retains_handle_w :
    (∃ t ∈ (AppState.mk [sampleTaskHandle] none).tasks, t.id = "1") ∧
      ((∀ t ∈ toggleComplete "1" (AppState.mk [sampleTaskHandle] none).tasks,
          t.id = "1" → t.notificationId = none) ∧
        ∃ d ∈ (AppState.mk [sampleTaskHandle] none).tasks, d.id = "1" ∧
          (undoDelete
              (deleteTask "1"
                (AppState.mk [sampleTaskHandle] none)).state).tasks.head?.map
              Task.notificationId = some d.notificationId) :=
  ⟨by decide,
   undo_retains_handle (AppState.mk [sampleTaskHandle] none) "1" (by decide)⟩

/-- C6 counterexample: deleting an absent id surfaces no error at all —
in particular not `NotFound` — and changes nothing. -/
theorem delete_missing_silent_cex :
    deleteTask "2" (AppState.mk [sampleTask] none) =
        { state := AppState.mk [sampleTask] none, error := none,
          effects := [] } ∧
      (deleteTask "2" (AppState.mk [sampleTask] none)).error ≠
        some AppError.notFound := by
  decide

/-- C6 amended: when no task has the requested id, `deleteTask` silently
does nothing: it surfaces no error, issues no scheduler request, and
leaves the task list and the pending-deletion holder unchanged. -/
theorem delete_missing_silent (s : AppState) (i : String)
    (h : ∀ t ∈ s.tasks, t.id ≠ i) :
    deleteTask i s = { state := s, error := none, effects := [] } := by
  have hf : s.tasks.find? (fun t => t.id == i) = none :=
    List.find?_eq_none.mpr fun t ht => by simpa using h t ht
  simp [deleteTask, hf]

/-- Witness for C6's amended statement: id `"2"` is absent. -/
theorem delete_missing_silent_w :
    (∀ t ∈ (AppState.mk [sampleTask] none).tasks, t.id ≠ "2") ∧
      deleteTask "2" (AppState.mk [sampleTask] none) =
        { state := AppState.mk [sampleTask] none, error := none,
          effects := [] } :=
  ⟨by decide,
   delete_missing_silent (AppState.mk [sampleTask] none) "2" (by decide)⟩

/-! ## Creation and update -/

/-- A task whose id happens to equal the string of a clock value. -/
def sampleTaskClock : Task :=
  { id := "5", text := "old", priority := .Low, completed := false,
    reminderSeconds := 0, notificationId := none }

/-- C5 counterexample: the fresh id is `Date.now().toString()` with no
uniqueness check, so creating at clock value `5` over a list that already
contains a task with id `"5"` prepends a task whose id collides with an
existing one: the resulting id column is `["5", "5"]`. -/
theorem create_id_collision_cex :
    ((addOrUpdateTask none "hi" .Medium 300 5 none
          (AppState.mk [sampleTaskClock] none)).state.tasks.head?.map
        Task.id = some "5") ∧
      "5" ∈ (AppState.mk [sampleTaskClock] none).tasks.map Task.id ∧
      (addOrUpdateTask none "hi" .Medium 300 5 none
          (AppState.mk [sampleTaskClock] none)).state.tasks.map Task.id =
        ["5", "5"] := by
  decide

/-- C5 amended: with non-empty trimmed text, create prepends exactly one
task whose `text` is the trimmed input, whose `priority` and
`reminderSeconds` match the input and whose `completed` flag is false;
its id is the decimal string of the clock value, and it is distinct from
every existing id only under the assumption that this string does not
already occur in the list (the code does not enforce this). -/
theorem create_prepends_task (s : AppState) (text : String) (p : Priority)
    (r now : Nat) (sched : Option String) (h : trimStr text ≠ "") :
    ∃ nt : Task,
      (addOrUpdateTask none text p r now sched s).state.tasks =
          nt :: s.tasks ∧
        nt.id = toString now ∧ nt.text = trimStr text ∧ nt.priority = p ∧
        nt.completed = false ∧ nt.reminderSeconds = r ∧
        (toString now ∉ s.tasks.map Task.id →
          ∀ t ∈ s.tasks, nt.id ≠ t.id) := by
  refine ⟨{ id := toString now, text := trimStr text, priority := p,
            completed := false, reminderSeconds := r,
            notificationId := scheduledHandle sched },
          ?_, rfl, rfl, rfl, rfl, rfl, ?_⟩
  · simp [addOrUpdateTask, h]
  · intro hniq t ht heq
    refine hniq ?_
    have : toString now = t.id := heq
    rw [this]
    exact List.mem_map_of_mem Task.id ht

/-- Witness for C5's amended statement: creating `"hi"` at clock 7 over
the empty list. -/
theorem create_prepends_task_w :
    (trimStr "hi" ≠ "") ∧
      ∃ nt : Task,
        (addOrUpdateTask none "hi" .High 60 7 none
              (AppState.mk [] none)).state.tasks =
            nt :: (AppState.mk [] none).tasks ∧
          nt.id = toString 7 ∧ nt.text = trimStr "hi" ∧
          nt.priority = .High ∧ nt.completed = false ∧
          nt.reminderSeconds = 60 ∧
          (toString 7 ∉ (AppState.mk [] none).tasks.map Task.id →
            ∀ t ∈ (AppState.mk [] none).tasks, nt.id ≠ t.id) :=
  ⟨by decide,
   create_prepends_task (AppState.mk [] none) "hi" .High 60 7 none
     (by decide)⟩

/-- C7: editing with non-empty trimmed text surfaces no error, sends the
scheduler no request (so the reminder is never rescheduled, even when
`reminderSeconds` changes), leaves the holder untouched, preserves the
list's length, and, positionally: a task with the edited id gets exactly
the new `text`, `priority` and `reminderSeconds` while keeping its `id`,
`completed` flag and `notificationId`; every other task is unchanged. -/
theorem update_frame (s : AppState) (eid text : String) (p : Priority)
    (r now : Nat) (sched : Option String) (h : trimStr text ≠ "") :
    (addOrUpdateTask (some eid) text p r now sched s).error = none ∧
      (addOrUpdateTask (some eid) text p r now sched s).effects = [] ∧
      (addOrUpdateTask (some eid) text p r now sched s).state.deletedTask =
        s.deletedTask ∧
      (addOrUpdateTask (some eid) text p r now sched s).state.tasks.length =
        s.tasks.length ∧
      ∀ (j : Nat) (old : Task), s.tasks[j]? = some old →
        ∃ nt : Task,
          (addOrUpdateTask (some eid) text p r now sched s).state.tasks[j]? =
              some nt ∧
            nt.id = old.id ∧ nt.completed = old.completed ∧
            nt.notificationId = old.notificationId ∧
            (old.id = eid →
              nt.text = text ∧ nt.priority = p ∧ nt.reminderSeconds = r) ∧
            (old.id ≠ eid → nt = old) := by
  have hmap : (addOrUpdateTask (some eid) text p r now sched s).state.tasks =
      s.tasks.map fun task =>
        if task.id = eid then
          { task with text := text, priority := p, reminderSeconds := r }
        else task := by
    rw [addOrUpdateTask, if_neg h]
  refine ⟨by rw [addOrUpdateTask, if_neg h], by rw [addOrUpdateTask, if_neg h],
    by rw [addOrUpdateTask, if_neg h], by rw [hmap, List.length_map], ?_⟩
  intro j old hj
  refine ⟨_, by rw [hmap, List.getElem?_map, hj]; rfl, ?_⟩
  by_cases hid : old.id = eid
  · simp [hid]
  · simp [hid]

/-- Witness for C7: editing task `"1"` of a one-task list with new text,
priority and reminder. -/
theorem update_frame_w :
    (trimStr "new text" ≠ "") ∧
      ((addOrUpdateTask (some "1") "new text" .High 60 7 none
            (AppState.mk [sampleTaskHandle] none)).error = none ∧
        (addOrUpdateTask (some "1") "new text" .High 60 7 none
            (AppState.mk [sampleTaskHandle] none)).effects = [] ∧
        (addOrUpdateTask (some "1") "new text" .High 60 7 none
            (AppState.mk [sampleTaskHandle] none)).state.deletedTask =
          (AppState.mk [sampleTaskHandle] none).deletedTask ∧
        (addOrUpdateTask (some "1") "new text" .High 60 7 none
            (AppState.mk [sampleTaskHandle] none)).state.tasks.length =
          (AppState.mk [sampleTaskHandle] none).tasks.length ∧
        ∀ (j : Nat) (old : Task),
          (AppState.mk [sampleTaskHandle] none).tasks[j]? = some old →
          ∃ nt : Task,
            (addOrUpdateTask (some "1") "new text" .High 60 7 none
                (AppState.mk [sampleTaskHandle] none)).state.tasks[j]? =
                some nt ∧
              nt.id = old.id ∧ nt.completed = old.completed ∧
              nt.notificationId = old.notificationId ∧
              (old.id = "1" →
                nt.text = "new text" ∧ nt.priority = .High ∧
                  nt.reminderSeconds = 60) ∧
              (old.id ≠ "1" → nt = old)) :=
  ⟨by decide,
   update_frame (AppState.mk [sampleTaskHandle] none) "1" "new text" .High
     60 7 none (by decide)⟩

/-- C10: with non-empty trimmed text, the create branch stores the
trimmed input text on the new front task, while the edit branch stores
the input text verbatim on the matching task — leading or trailing
whitespace survives a plain edit. -/
theorem create_trims_update_verbatim (s : AppState) (eid text : String)
    (p : Priority) (r now : Nat) (sched : Option String)
    (h : trimStr text ≠ "") :
    ((addOrUpdateTask none text p r now sched s).state.tasks.head?.map
        Task.text = some (trimStr text)) ∧
      ∀ (j : Nat) (old : Task), s.tasks[j]? = some old → old.id = eid →
        (addOrUpdateTask (some eid) text p r now sched s).state.tasks[j]?.map
            Task.text = some text := by
  have hmap : (addOrUpdateTask (some eid) text p r now sched s).state.tasks =
      s.tasks.map fun task =>
        if task.id = eid then
          { task with text := text, priority := p, reminderSeconds := r }
        else task := by
    rw [addOrUpdateTask, if_neg h]
  constructor
  · simp [addOrUpdateTask, h]
  · intro j old hj hid
    rw [hmap, List.getElem?_map, hj]
    simp [hid]

/-- Witness for C10 at the concrete text `" hi "` (stored as `"hi"` by
create and as `" hi "` by the edit of task `"1"`). -/
theorem create_trims_update_verbatim_w :
    (trimStr " hi " ≠ "") ∧
      (((addOrUpdateTask none " hi " .Medium 300 7 none
            (AppState.mk [sampleTask] none)).state.tasks.head?.map
          Task.text = some (trimStr " hi ")) ∧
        ∀ (j : Nat) (old : Task),
          (AppState.mk [sampleTask] none).tasks[j]? = some old →
          old.id = "1" →
          (addOrUpdateTask (some "1") " hi " .Medium 300 7 none
              (AppState.mk [sampleTask] none)).state.tasks[j]?.map
              Task.text = some " hi ") :=
  ⟨by decide,
   create_trims_update_verbatim (AppState.mk [sampleTask] none) "1" " hi "
     .Medium 300 7 none (by decide)⟩

/-! ## The derived view -/

/-- C8: with the High filter and any sort key, the derived view is some
permutation of exactly the stored High-priority tasks (so every element
is High-priority and nothing else appears), it is sorted by the chosen
key, and tasks whose keys compare equal keep their relative stored
order: restricting the view to any one key value reproduces the
restriction of the stored (filtered) list.  The stored list is only read
— `displayedTasks` is a pure function of it. -/
theorem derivedView_filter_high (sk : SortOption) (tasks : List Task) :
    (∀ t ∈ displayedTasks sk (some .High) tasks, t.priority = .High) ∧
      (displayedTasks sk (some .High) tasks).Perm
        (tasks.filter (fun t => t.priority == Priority.High)) ∧
      List.Sorted (taskLE sk) (displayedTasks sk (some .High) tasks) ∧
      ∀ k : Nat,
        (displayedTasks sk (some .High) tasks).filter
            (fun t => sortKeyVal sk t == k) =
          (tasks.filter (fun t => t.priority == Priority.High)).filter
            (fun t => sortKeyVal sk t == k) := by
  refine ⟨?_, ?_, ?_, ?_⟩
  · intro t ht
    have : t ∈ tasks.filter (fun t => t.priority == Priority.High) := by
      simpa [displayedTasks] using ht
    simpa using (List.mem_filter.mp this).2
  · exact List.perm_insertionSort (taskLE sk) _
  · exact List.sorted_insertionSort (taskLE sk) _
  · intro k
    exact filter_insertionSort_key sk k _

/-- Task A of the spec's §8 scenario: "Buy milk", Medium, reminder 60. -/
def taskA : Task :=
  { id := "1", text := "Buy milk", priority := .Medium, completed := false,
    reminderSeconds := 60, notificationId := none }

/-- Task B of the spec's §8 scenario: "Call Bob", High, reminder 10. -/
def taskB : Task :=
  { id := "2", text := "Call Bob", priority := .High, completed := false,
    reminderSeconds := 10, notificationId := none }

/-- C9: sorting by priority orders the view so that every later task has
a priority rank no smaller than every earlier one (`High ↦ 1`,
`Medium ↦ 2`, `Low ↦ 3`, so High comes before Medium before Low), tasks
of equal priority keep their relative stored order, and on the stored
list `[B (High, 10), A (Medium, 60)]` the view is `[B, A]`. -/
theorem derivedView_sort_priority (tasks : List Task) :
    List.Pairwise
        (fun a b => priorityOrder a.priority ≤ priorityOrder b.priority)
        (displayedTasks .priority none tasks) ∧
      (∀ k : Nat,
        (displayedTasks .priority none tasks).filter
            (fun t => priorityOrder t.priority == k) =
          tasks.filter (fun t => priorityOrder t.priority == k)) ∧
      displayedTasks .priority none [taskB, taskA] = [taskB, taskA] := by
  refine ⟨?_, ?_, by decide⟩
  · exact List.sorted_insertionSort (taskLE .priority) _
  · intro k
    exact filter_insertionSort_key .priority k tasks

end TasksApp
